import Mathlib

/-!
Verification development for the country-currency caching service
(`app/crud.py`, `app/services.py`, `app/models.py`, `app/main.py`).

Modelling conventions of the shallow embedding:

* A `Country` row of the `countries` table is a record; SQL `NULL`able
  columns become `Option` fields; the `Float` columns (`exchange_rate`,
  `estimated_gdp`) are modelled as `ℚ`; timestamps are abstract `ℕ` ticks.
* The database session/state is a `Store`: the list of rows (in insertion
  order, which is the store iteration order), the next auto-increment id,
  and the singleton `app_status` row (`Option ℕ`).
* `ORDER BY estimated_gdp DESC` is modelled with `NULL`s ordered last
  (the SQLite/MySQL semantics, and what the source comment
  "Sort by GDP, putting NULLs last" states); the sort itself is an
  insertion sort, standing for the database's ordered scan.
* The two external fetches are inputs of type `Except`, carrying either
  the fetched value or the `ServiceUnavailableException` the fetcher
  raises on transport failure; `asyncio.gather` surfaces one failure.
* `datetime.now(timezone.utc)` captured in `process_and_cache_countries`
  is the parameter `refresh_time`; the database clock used by the
  `server_default=func.now(), onupdate=func.now()` column default of
  `last_refreshed_at` is the stream `nows : ℕ → ℕ` (one value per row
  write); the `random.randint(1000, 2000)` multiplier draws are the
  stream `ms : ℕ → ℕ`.
* `generate_summary_image` only reads the store and writes a file; its
  possible failure is the flag `render_fails`.
-/

/-- A row of the `countries` table (`app/models.py`, class `Country`). -/
structure Country where
  id : ℕ
  name : String
  capital : Option String
  region : Option String
  population : Int
  currency_code : Option String
  exchange_rate : Option ℚ
  estimated_gdp : Option ℚ
  flag_url : Option String
  last_refreshed_at : ℕ
deriving DecidableEq, Repr

/-- The payload of an upsert (`app/schemas.py`, class `CountryCreate`):
every column except `id` and `last_refreshed_at`. -/
structure CountryCreate where
  name : String
  capital : Option String
  region : Option String
  population : Int
  currency_code : Option String
  exchange_rate : Option ℚ
  estimated_gdp : Option ℚ
  flag_url : Option String
deriving DecidableEq, Repr

/-- One entry of a raw record's `currencies` JSON list: either a dict,
whose `"code"` key may be absent (`dict none`) or hold a string, or a
non-dict value. -/
inductive CurrencyEntry where
  | dict (code : Option String)
  | nondict
deriving DecidableEq, Repr

/-- The `"code"` key of a currency entry, `none` when the entry is not a
dict or has no `"code"` key (`first_currency.get("code")`). -/
def entry_code : CurrencyEntry → Option String
  | .dict c => c
  | .nondict => none

/-- The raw `currencies` field value: a JSON list of entries, or some
non-list value (`isinstance(currencies, list)` fails on the latter). -/
inductive CurrenciesVal where
  | list (entries : List CurrencyEntry)
  | nonlist
deriving DecidableEq, Repr

/-- A raw country record fetched from the countries source; every field
may be absent (`country_data.get(...)`). -/
structure RawCountry where
  name : Option String
  capital : Option String
  region : Option String
  population : Option Int
  currencies : Option CurrenciesVal
  flag : Option String
deriving DecidableEq, Repr

/-- The persistent state: the `countries` rows in store iteration order,
the next auto-increment id, and the `app_status` singleton row's
`last_refreshed_at` (absent until the first refresh). -/
structure Store where
  rows : List Country
  nextId : ℕ
  appStatus : Option ℕ
deriving DecidableEq, Repr

/-- Lowercasing of a string, modelling Python's `str.lower()` and SQL's
`lower()`: `Char.toLower` applied to every character. -/
def strLower (s : String) : String :=
  ⟨s.data.map Char.toLower⟩

/-- Python truthiness of an optional string: `None` and `""` are falsy. -/
def strTruthy : Option String → Bool
  | none => false
  | some s => !(s == "")

/-- `get_country_by_name` (`app/crud.py`): first row whose lowercased
name equals the lowercased argument. -/
def get_country_by_name (st : Store) (name : String) : Option Country :=
  st.rows.find? (fun c => strLower c.name == strLower name)

/-- The `ORDER BY estimated_gdp DESC` comparison: larger values first,
SQL `NULL`s last (the source comment: "Sort by GDP, putting NULLs last"). -/
def gdp_desc_le (a b : Country) : Bool :=
  match a.estimated_gdp, b.estimated_gdp with
  | some x, some y => decide (y ≤ x)
  | some _, none => true
  | none, some _ => false
  | none, none => true

/-- The `ORDER BY name ASC` comparison (default sort of `get_countries`). -/
def name_asc_le (a b : Country) : Bool :=
  decide (a.name ≤ b.name)

/-- Insert an element into a list sorted by `le`. -/
def insert_le {α : Type} (le : α → α → Bool) (a : α) : List α → List α
  | [] => [a]
  | b :: l => if le a b then a :: b :: l else b :: insert_le le a l

/-- Insertion sort by `le`, modelling the database's ordered result scan. -/
def sort_by {α : Type} (le : α → α → Bool) : List α → List α
  | [] => []
  | a :: l => insert_le le a (sort_by le l)

/-- The filter and sort part of `get_countries` (`app/crud.py`): optional
region and currency equality filters (skipped for falsy arguments, as
`if region:` / `if currency:` do), then `gdp_desc` or the default
name-ascending order. -/
def filter_sort (st : Store) (region currency sort : Option String) : List Country :=
  let q1 := if strTruthy region then st.rows.filter (fun c => c.region == region) else st.rows
  let q2 := if strTruthy currency then q1.filter (fun c => c.currency_code == currency) else q1
  if sort = some "gdp_desc" then sort_by gdp_desc_le q2 else sort_by name_asc_le q2

/-- `get_countries` (`app/crud.py`): filter, sort, then
`offset(skip).limit(limit)`. -/
def get_countries (st : Store) (region currency sort : Option String)
    (skip limit : ℕ) : List Country :=
  ((filter_sort st region currency sort).drop skip).take limit

/-- The `GET /countries` endpoint (`app/main.py`, `get_all_countries`):
calls `get_countries` with its defaults `skip=0, limit=100`, exposing no
pagination parameters. -/
def get_all_countries (st : Store) (region currency sort : Option String) : List Country :=
  get_countries st region currency sort 0 100

/-- `get_countries_count` (`app/crud.py`): total number of rows. -/
def get_countries_count (st : Store) : ℕ :=
  st.rows.length

/-- `get_top_gdp_countries` (`app/crud.py`): all rows ordered by
`estimated_gdp DESC`, truncated to `limit`. -/
def get_top_gdp_countries (st : Store) (limit : ℕ) : List Country :=
  (sort_by gdp_desc_le st.rows).take limit

/-- The `UPDATE ... VALUES(**country_dict)` of `upsert_country`: overwrite
every `CountryCreate` column, keep `id`, and let the column's
`onupdate=func.now()` stamp `last_refreshed_at` with the database clock. -/
def apply_update (c : Country) (d : CountryCreate) (now : ℕ) : Country :=
  { id := c.id, name := d.name, capital := d.capital, region := d.region,
    population := d.population, currency_code := d.currency_code,
    exchange_rate := d.exchange_rate, estimated_gdp := d.estimated_gdp,
    flag_url := d.flag_url, last_refreshed_at := now }

/-- A freshly inserted row: a new id, the payload's columns, and
`last_refreshed_at` from the column's `server_default=func.now()`. -/
def mk_row (id : ℕ) (d : CountryCreate) (now : ℕ) : Country :=
  { id := id, name := d.name, capital := d.capital, region := d.region,
    population := d.population, currency_code := d.currency_code,
    exchange_rate := d.exchange_rate, estimated_gdp := d.estimated_gdp,
    flag_url := d.flag_url, last_refreshed_at := now }

/-- `upsert_country` (`app/crud.py`): look up by case-insensitive name;
if found, update that row in place (matched by `id`), else insert a new
row with the next auto-increment id. `now` is the database clock value
of this write. -/
def upsert_country (st : Store) (d : CountryCreate) (now : ℕ) : Store :=
  match get_country_by_name st d.name with
  | some c =>
    { st with rows := st.rows.map (fun r => if r.id = c.id then apply_update r d now else r) }
  | none =>
    { st with rows := st.rows ++ [mk_row st.nextId d now], nextId := st.nextId + 1 }

/-- `delete_country_by_name` (`app/crud.py`): look up by case-insensitive
name; if found, delete that row and return it, else return `none`. -/
def delete_country_by_name (st : Store) (name : String) : Store × Option Country :=
  match get_country_by_name st name with
  | some c => ({ st with rows := st.rows.filter (fun r => r.id != c.id) }, some c)
  | none => (st, none)

/-- `update_app_status` (`app/crud.py`): create or overwrite the
singleton `app_status` row with the given refresh time. -/
def update_app_status (st : Store) (refresh_time : ℕ) : Store :=
  { st with appStatus := some refresh_time }

/-- The typed failure raised by both fetchers
(`app/services.py`, class `ServiceUnavailableException`). -/
structure ServiceUnavailableException where
  api_name : String
  details : String
deriving DecidableEq, Repr

/-- The currency-code extraction of `process_and_cache_countries`
(`app/services.py` lines 82-87): the field must be a truthy list; only
its first entry is consulted, and only if that entry is a dict. -/
def extract_currency_code : Option CurrenciesVal → Option String
  | some (.list (e :: _)) => entry_code e
  | _ => none

/-- The inline GDP estimation block of `process_and_cache_countries`
(`app/services.py` lines 89-105), the spec's Estimator. `m` stands for
the `random.randint(1000, 2000)` draw of this record. Python truthiness
makes an extracted `""` code fall to the no-currency branch. -/
def estimate (population : Int) (currency_code : Option String)
    (rates : String → Option ℚ) (m : ℕ) : Option String × Option ℚ × Option ℚ :=
  match currency_code with
  | some c =>
    if c = "" then (none, none, some 0)
    else
      match rates c with
      | some rate =>
        if 0 < rate then (some c, some rate, some ((population : ℚ) * (m : ℚ) / rate))
        else (some c, some rate, some 0)
      | none => (some c, none, none)
  | none => (none, none, some 0)

/-- Processing of one raw record inside the loop of
`process_and_cache_countries`: the skip rule
(`if not name or population is None: continue`), then currency
extraction and GDP estimation, producing the upsert payload. -/
def process_record (rates : String → Option ℚ) (m : ℕ) (r : RawCountry) :
    Option CountryCreate :=
  match r.name, r.population with
  | some nm, some pop =>
    if nm = "" then none
    else
      let cc := extract_currency_code r.currencies
      let e := estimate pop cc rates m
      some { name := nm, capital := r.capital, region := r.region, population := pop,
             currency_code := e.1, exchange_rate := e.2.1, estimated_gdp := e.2.2,
             flag_url := r.flag }
  | _, _ => none

/-- The per-record loop of `process_and_cache_countries`: records in
source order; each upserted record consumes one multiplier draw `ms k`
and one database-clock tick `nows k`; skipped records consume neither. -/
def process_list (rates : String → Option ℚ) (ms nows : ℕ → ℕ) :
    Store → List RawCountry → ℕ → Store
  | st, [], _ => st
  | st, r :: rs, k =>
    match process_record rates (ms k) r with
    | some payload => process_list rates ms nows (upsert_country st payload (nows k)) rs (k + 1)
    | none => process_list rates ms nows st rs k

/-- The JSON body of a `POST /countries/refresh` response, per the
handlers in `app/main.py`: the success payload of
`process_and_cache_countries`, the 503 body of
`service_unavailable_handler`, or the 500 body of
`generic_exception_handler`. -/
inductive ResponseBody where
  | success (refreshed_at : ℕ)
  | sourceUnavailable (api_name : String)
  | internalError
deriving DecidableEq, Repr

/-- An HTTP response: status code and JSON body. -/
structure HttpResponse where
  status_code : ℕ
  body : ResponseBody
deriving DecidableEq, Repr

/-- Outcome of one run of `process_and_cache_countries`: a fetch failure
raised before any write, a `generate_summary_image` failure raised after
the commit (the committed store survives), or success. -/
inductive RefreshOutcome where
  | srcError (e : ServiceUnavailableException)
  | renderError (st : Store)
  | ok (st : Store) (refreshed_at : ℕ)
deriving DecidableEq, Repr

/-- `process_and_cache_countries` (`app/services.py`): gather the two
fetches (either failure aborts before any write), capture
`refresh_time`, process every record, set the `app_status` marker,
commit, then generate the summary image; an image failure happens after
the commit. -/
def process_and_cache_countries (st : Store)
    (ratesR : Except ServiceUnavailableException (String → Option ℚ))
    (countriesR : Except ServiceUnavailableException (List RawCountry))
    (refresh_time : ℕ) (ms nows : ℕ → ℕ) (render_fails : Bool) : RefreshOutcome :=
  match ratesR, countriesR with
  | .error e, _ => .srcError e
  | .ok _, .error e => .srcError e
  | .ok rates, .ok countries =>
    let st1 := process_list rates ms nows st countries 0
    let st2 := update_app_status st1 refresh_time
    if render_fails then .renderError st2
    else .ok st2 refresh_time

/-- The `POST /countries/refresh` endpoint (`app/main.py`,
`refresh_countries_data`) together with the exception handlers: a
`ServiceUnavailableException` becomes a 503 and leaves the session's
uncommitted work discarded, any other exception becomes a 500 (after the
commit, so the committed store is kept), success returns 200 with the
service's payload. -/
def refresh_countries_data (st : Store)
    (ratesR : Except ServiceUnavailableException (String → Option ℚ))
    (countriesR : Except ServiceUnavailableException (List RawCountry))
    (refresh_time : ℕ) (ms nows : ℕ → ℕ) (render_fails : Bool) : Store × HttpResponse :=
  match process_and_cache_countries st ratesR countriesR refresh_time ms nows render_fails with
  | .srcError e => (st, ⟨503, .sourceUnavailable e.api_name⟩)
  | .renderError st2 => (st2, ⟨500, .internalError⟩)
  | .ok st2 t => (st2, ⟨200, .success t⟩)

/-- The order the spec requires of a `gdp_desc` result: a row with null
`estimated_gdp` never precedes a row with a non-null one, and the
non-null values are non-increasing. -/
def GdpOrdered (l : List Country) : Prop :=
  l.Pairwise (fun a b =>
    (a.estimated_gdp = none → b.estimated_gdp = none) ∧
    ∀ x y, a.estimated_gdp = some x → b.estimated_gdp = some y → y ≤ x)

/-- The case-insensitive natural key of a row. -/
def nameKey (c : Country) : String :=
  strLower c.name

/-- Well-formedness of the store: at most one row per case-insensitive
name, distinct ids, and every id below the auto-increment counter. -/
def StoreWF (st : Store) : Prop :=
  st.rows.Pairwise (fun a b => nameKey a ≠ nameKey b) ∧
  st.rows.Pairwise (fun a b => a.id ≠ b.id) ∧
  ∀ c ∈ st.rows, c.id < st.nextId

/-- A store with one row, for concrete witnesses. -/
def demoStore : Store :=
  { rows := [{ id := 1, name := "Nigeria", capital := some "Abuja",
               region := some "Africa", population := 200000000,
               currency_code := some "NGN", exchange_rate := some 1600,
               estimated_gdp := some 250000, flag_url := none,
               last_refreshed_at := 7 }],
    nextId := 2, appStatus := some 7 }

/-- The empty store, for concrete witnesses. -/
def emptyStore : Store :=
  { rows := [], nextId := 0, appStatus := none }

/-- A concrete rate table, for concrete witnesses. -/
def demoRates : String → Option ℚ :=
  fun s => if s = "USD" then some 2 else none

/-- A concrete raw record with no currency field, for counterexamples. -/
def rawWakanda : RawCountry :=
  { name := some "Wakanda", capital := none, region := none, population := some 5,
    currencies := none, flag := none }

/-- A concrete first upsert payload, for concrete witnesses. -/
def d1c : CountryCreate :=
  { name := "Nigeria", capital := none, region := none, population := 1,
    currency_code := none, exchange_rate := none, estimated_gdp := none,
    flag_url := none }

/-- A second payload with the same case-insensitive name as `d1c` but
different data, for concrete witnesses. -/
def d2c : CountryCreate :=
  { name := "NIGERIA", capital := some "Abuja", region := some "Africa",
    population := 2, currency_code := some "NGN", exchange_rate := some 1,
    estimated_gdp := some 3, flag_url := none }

/-- C8: `get_country_by_name` depends on its argument only through its
lowercasing, so any two casings of a name give the same result. -/
theorem C8_find_by_name_case_insensitive (st : Store) (n1 n2 : String)
    (h : strLower n1 = strLower n2) :
    get_country_by_name st n1 = get_country_by_name st n2 := by
  unfold get_country_by_name
  rw [h]

theorem C8_witness :
    strLower "Nigeria" = strLower "nigeria" ∧
    get_country_by_name demoStore "Nigeria" = get_country_by_name demoStore "nigeria" :=
  ⟨by decide, C8_find_by_name_case_insensitive demoStore "Nigeria" "nigeria" (by decide)⟩

/-- C9: for every store state and every combination of the `region`,
`currency` and `sort` query parameters, `GET /countries` returns at most
100 rows, namely exactly the first 100 rows of the filtered and sorted
result (offset 0), the rest being silently omitted. -/
theorem C9_get_all_countries_capped (st : Store) (region currency sort : Option String) :
    (get_all_countries st region currency sort).length ≤ 100 ∧
    get_all_countries st region currency sort = (filter_sort st region currency sort).take 100 := by
  constructor
  · simp [get_all_countries, get_countries]
  · simp [get_all_countries, get_countries]

theorem mem_insert_le {α : Type} (le : α → α → Bool) (a x : α) (l : List α) :
    x ∈ insert_le le a l ↔ x = a ∨ x ∈ l := by
  induction l with
  | nil => simp [insert_le]
  | cons b l ih =>
    by_cases h : le a b
    · simp [insert_le, h]
    · simp [insert_le, h, ih]
      tauto

theorem pairwise_insert_le {α : Type} (le : α → α → Bool)
    (htot : ∀ a b, le a b = true ∨ le b a = true)
    (htrans : ∀ a b c, le a b = true → le b c = true → le a c = true)
    (a : α) (l : List α) (hl : l.Pairwise (fun x y => le x y = true)) :
    (insert_le le a l).Pairwise (fun x y => le x y = true) := by
  induction l with
  | nil => simp [insert_le]
  | cons b l ih =>
    rcases List.pairwise_cons.mp hl with ⟨hb, hl'⟩
    by_cases h : le a b = true
    · rw [show insert_le le a (b :: l) = a :: b :: l from by simp [insert_le, h]]
      refine List.pairwise_cons.mpr ⟨?_, hl⟩
      intro x hx
      rcases List.mem_cons.mp hx with rfl | hx
      · exact h
      · exact htrans a b x h (hb x hx)
    · rw [show insert_le le a (b :: l) = b :: insert_le le a l from by simp [insert_le, h]]
      refine List.pairwise_cons.mpr ⟨?_, ih hl'⟩
      intro x hx
      rcases (mem_insert_le le a x l).mp hx with rfl | hx
      · rcases htot x b with h' | h'
        · exact absurd h' h
        · exact h'
      · exact hb x hx

theorem pairwise_sort_by {α : Type} (le : α → α → Bool)
    (htot : ∀ a b, le a b = true ∨ le b a = true)
    (htrans : ∀ a b c, le a b = true → le b c = true → le a c = true)
    (l : List α) :
    (sort_by le l).Pairwise (fun x y => le x y = true) := by
  induction l with
  | nil => simp [sort_by]
  | cons a l ih =>
    rw [show sort_by le (a :: l) = insert_le le a (sort_by le l) from rfl]
    exact pairwise_insert_le le htot htrans a (sort_by le l) ih

theorem gdp_desc_le_total (a b : Country) :
    gdp_desc_le a b = true ∨ gdp_desc_le b a = true := by
  unfold gdp_desc_le
  rcases a.estimated_gdp with _ | x <;> rcases b.estimated_gdp with _ | y <;> simp
  exact le_total y x

theorem gdp_desc_le_trans (a b c : Country)
    (h1 : gdp_desc_le a b = true) (h2 : gdp_desc_le b c = true) :
    gdp_desc_le a c = true := by
  unfold gdp_desc_le at h1 h2 ⊢
  rcases ha : a.estimated_gdp with _ | x <;>
    rcases hb : b.estimated_gdp with _ | y <;>
      rcases hc : c.estimated_gdp with _ | z <;>
        simp_all
  exact h2.trans h1

theorem gdp_pairwise_ordered (l : List Country)
    (h : l.Pairwise (fun a b => gdp_desc_le a b = true)) : GdpOrdered l := by
  refine List.Pairwise.imp ?_ h
  intro a b hab
  unfold gdp_desc_le at hab
  constructor
  · intro ha
    rcases hb : b.estimated_gdp with _ | y
    · rfl
    · rw [ha, hb] at hab
      simp at hab
  · intro x y hx hy
    rw [hx, hy] at hab
    simpa using hab

theorem gdp_sorted_drop_take (l : List Country) (s t : ℕ) :
    GdpOrdered (((sort_by gdp_desc_le l).drop s).take t) := by
  apply gdp_pairwise_ordered
  have hp := pairwise_sort_by gdp_desc_le gdp_desc_le_total gdp_desc_le_trans l
  have h1 : List.Sublist (((sort_by gdp_desc_le l).drop s).take t) (sort_by gdp_desc_le l) :=
    (List.take_sublist _ _).trans (List.drop_sublist _ _)
  exact hp.sublist h1

/-- C1: for every store state (and any filters, offset and limit),
`get_countries` with `sort=gdp_desc` and `get_top_gdp_countries` both
return rows with null `estimated_gdp` after all non-null rows and the
non-null values non-increasing. -/
theorem C1_gdp_desc_sorted (st : Store) (region currency : Option String)
    (skip limit n : ℕ) :
    GdpOrdered (get_countries st region currency (some "gdp_desc") skip limit) ∧
    GdpOrdered (get_top_gdp_countries st n) := by
  constructor
  · unfold get_countries filter_sort
    rw [if_pos rfl]
    exact gdp_sorted_drop_take _ skip limit
  · exact gdp_sorted_drop_take st.rows 0 n

/-- C3: the GDP estimation follows the decision table — no extracted
code gives `(null, null, 0.0)`; a code absent from the rate table gives
`(code, null, null)`; a code with rate `≤ 0` gives `(code, rate, 0.0)`;
a code with rate `> 0` gives `(code, rate, population * m / rate)` for a
multiplier `m` drawn from the range `1000..2000`. -/
theorem C3_estimator_decision_table (pop : Int) (c : String) (rate : ℚ)
    (rates : String → Option ℚ) (m : ℕ)
    (hm1 : 1000 ≤ m) (hm2 : m ≤ 2000) (hc : c ≠ "") :
    estimate pop none rates m = (none, none, some 0) ∧
    (rates c = none → estimate pop (some c) rates m = (some c, none, none)) ∧
    (rates c = some rate → rate ≤ 0 →
      estimate pop (some c) rates m = (some c, some rate, some 0)) ∧
    (rates c = some rate → 0 < rate →
      estimate pop (some c) rates m =
        (some c, some rate, some ((pop : ℚ) * (m : ℚ) / rate))) := by
  refine ⟨rfl, ?_, ?_, ?_⟩
  · intro h
    simp [estimate, hc, h]
  · intro h hle
    simp [estimate, hc, h, not_lt.mpr hle]
  · intro h hlt
    simp [estimate, hc, h, hlt]

theorem C3_witness :
    ((1000 : ℕ) ≤ 1000 ∧ (1000 : ℕ) ≤ 2000 ∧ "USD" ≠ "") ∧
    (estimate 1000 none demoRates 1000 = (none, none, some 0) ∧
     (demoRates "USD" = none → estimate 1000 (some "USD") demoRates 1000 = (some "USD", none, none)) ∧
     (demoRates "USD" = some 2 → (2 : ℚ) ≤ 0 →
       estimate 1000 (some "USD") demoRates 1000 = (some "USD", some 2, some 0)) ∧
     (demoRates "USD" = some 2 → (0 : ℚ) < 2 →
       estimate 1000 (some "USD") demoRates 1000 =
         (some "USD", some 2, some ((1000 : ℚ) * (1000 : ℚ) / 2)))) :=
  ⟨⟨by decide, by decide, by decide⟩,
   C3_estimator_decision_table 1000 "USD" 2 demoRates 1000 (by decide) (by decide) (by decide)⟩

/-- C10: a raw record whose `currencies` field is a non-empty list whose
first entry is not a dict or lacks a `"code"` key is processed as if it
had no currency: the payload carries `currency_code = null`,
`exchange_rate = null`, `estimated_gdp = 0.0`, whatever the later
entries are. -/
theorem C10_malformed_first_currency (nm : String) (pop : Int)
    (e : CurrencyEntry) (tail : List CurrencyEntry)
    (rates : String → Option ℚ) (m : ℕ) (cap reg flg : Option String)
    (hnm : nm ≠ "") (he : entry_code e = none) :
    process_record rates m
      { name := some nm, capital := cap, region := reg, population := some pop,
        currencies := some (.list (e :: tail)), flag := flg } =
      some { name := nm, capital := cap, region := reg, population := pop,
             currency_code := none, exchange_rate := none, estimated_gdp := some 0,
             flag_url := flg } := by
  simp [process_record, hnm, extract_currency_code, he, estimate]

theorem C10_witness :
    ("Atlantis" ≠ "" ∧ entry_code .nondict = none) ∧
    process_record (fun _ => none) 1500
      { name := some "Atlantis", capital := none, region := none, population := some 5,
        currencies := some (.list (.nondict :: [.dict (some "EUR")])), flag := none } =
      some { name := "Atlantis", capital := none, region := none, population := 5,
             currency_code := none, exchange_rate := none, estimated_gdp := some 0,
             flag_url := none } :=
  ⟨⟨by decide, rfl⟩,
   C10_malformed_first_currency "Atlantis" 5 .nondict [.dict (some "EUR")]
     (fun _ => none) 1500 none none none (by decide) rfl⟩

/-- C7: a raw record with a missing or empty name, or a missing
population, is dropped entirely — processing the list with it equals
processing the list without it (no upsert, no draw, no clock tick
consumed) — and its presence never makes the cycle fail: the refresh
endpoint still answers 200 success. -/
theorem C7_skip_rule (rates : String → Option ℚ) (ms nows : ℕ → ℕ) (st : Store)
    (r : RawCountry) (rs : List RawCountry) (k rt : ℕ)
    (h : r.name = none ∨ r.name = some "" ∨ r.population = none) :
    process_list rates ms nows st (r :: rs) k = process_list rates ms nows st rs k ∧
    (refresh_countries_data st (.ok rates) (.ok (r :: rs)) rt ms nows false).snd =
      ⟨200, .success rt⟩ := by
  obtain ⟨nm, cap, reg, pop, cur, flg⟩ := r
  have hrec : ∀ m, process_record rates m ⟨nm, cap, reg, pop, cur, flg⟩ = none := by
    intro m
    rcases h with h | h | h <;> simp only [] at h <;> subst h
    · cases pop <;> simp [process_record]
    · cases pop <;> simp [process_record]
    · cases nm <;> simp [process_record]
  constructor
  · simp [process_list, hrec]
  · simp [refresh_countries_data, process_and_cache_countries]

theorem C7_witness :
    (({ name := none, capital := none, region := none, population := some 3,
        currencies := none, flag := none } : RawCountry).name = none ∨
     ({ name := none, capital := none, region := none, population := some 3,
        currencies := none, flag := none } : RawCountry).name = some "" ∨
     ({ name := none, capital := none, region := none, population := some 3,
        currencies := none, flag := none } : RawCountry).population = none) ∧
    (process_list demoRates (fun _ => 1500) (fun k => k) emptyStore
       [{ name := none, capital := none, region := none, population := some 3,
          currencies := none, flag := none }] 0 =
       process_list demoRates (fun _ => 1500) (fun k => k) emptyStore [] 0 ∧
     (refresh_countries_data emptyStore (.ok demoRates)
        (.ok [{ name := none, capital := none, region := none, population := some 3,
                currencies := none, flag := none }]) 9 (fun _ => 1500) (fun k => k) false).snd =
       ⟨200, .success 9⟩) :=
  ⟨Or.inl rfl,
   C7_skip_rule demoRates (fun _ => 1500) (fun k => k) emptyStore
     { name := none, capital := none, region := none, population := some 3,
       currencies := none, flag := none } [] 0 9 (Or.inl rfl)⟩

/-- C2: whichever of the two concurrent fetches fails, the refresh cycle
aborts with the typed source failure surfaced as a 503 response and
performs no write at all: the store is returned unchanged — same rows
(hence same `last_refreshed_at` on every row), same count, same
`app_status` marker. -/
theorem C2_fetch_failure_no_write (st : Store) (rt : ℕ) (ms nows : ℕ → ℕ)
    (rf : Bool) (e : ServiceUnavailableException)
    (ratesR : Except ServiceUnavailableException (String → Option ℚ))
    (countriesR : Except ServiceUnavailableException (List RawCountry)) :
    ((refresh_countries_data st (.error e) countriesR rt ms nows rf).fst = st ∧
     get_countries_count (refresh_countries_data st (.error e) countriesR rt ms nows rf).fst =
       get_countries_count st ∧
     (refresh_countries_data st (.error e) countriesR rt ms nows rf).fst.rows = st.rows ∧
     (refresh_countries_data st (.error e) countriesR rt ms nows rf).fst.appStatus = st.appStatus ∧
     (refresh_countries_data st (.error e) countriesR rt ms nows rf).snd =
       ⟨503, .sourceUnavailable e.api_name⟩) ∧
    ((refresh_countries_data st ratesR (.error e) rt ms nows rf).fst = st ∧
     get_countries_count (refresh_countries_data st ratesR (.error e) rt ms nows rf).fst =
       get_countries_count st ∧
     (refresh_countries_data st ratesR (.error e) rt ms nows rf).fst.rows = st.rows ∧
     (refresh_countries_data st ratesR (.error e) rt ms nows rf).fst.appStatus = st.appStatus ∧
     ∃ nm, (refresh_countries_data st ratesR (.error e) rt ms nows rf).snd =
       ⟨503, .sourceUnavailable nm⟩) := by
  constructor
  · cases countriesR <;> simp [refresh_countries_data, process_and_cache_countries]
  · cases ratesR <;> simp [refresh_countries_data, process_and_cache_countries]

theorem upsert_touched (st : Store) (d : CountryCreate) (t : ℕ) (c : Country)
    (hc : c ∈ (upsert_country st d t).rows) :
    c ∈ st.rows ∨ c.last_refreshed_at = t := by
  unfold upsert_country at hc
  cases h : get_country_by_name st d.name with
  | some c0 =>
    rw [h] at hc
    simp only [List.mem_map] at hc
    obtain ⟨r, hr, hfr⟩ := hc
    by_cases hid : r.id = c0.id
    · right
      rw [← hfr]
      simp [hid, apply_update]
    · left
      rw [← hfr]
      simpa [hid] using hr
  | none =>
    rw [h] at hc
    simp only [List.mem_append, List.mem_singleton] at hc
    rcases hc with hc | hc
    · exact Or.inl hc
    · right
      rw [hc]
      rfl

theorem process_list_touched (rates : String → Option ℚ) (ms nows : ℕ → ℕ)
    (cs : List RawCountry) (st : Store) (k : ℕ) (c : Country)
    (hc : c ∈ (process_list rates ms nows st cs k).rows) :
    c ∈ st.rows ∨ ∃ j, c.last_refreshed_at = nows j := by
  induction cs generalizing st k with
  | nil =>
    left
    simpa [process_list] using hc
  | cons r rs ih =>
    rw [process_list] at hc
    cases hrec : process_record rates (ms k) r with
    | some payload =>
      rw [hrec] at hc
      rcases ih (upsert_country st payload (nows k)) (k + 1) hc with h | h
      · rcases upsert_touched st payload (nows k) c h with h' | h'
        · exact Or.inl h'
        · exact Or.inr ⟨k, h'⟩
      · exact Or.inr h
    | none =>
      rw [hrec] at hc
      exact ih st k hc

/-- C5 counterexample: on a concrete successful refresh cycle with
`refresh_time = 0` and a database write clock returning 100, the single
upserted row's `last_refreshed_at` is 100, not the cycle's
`refresh_time`, while the `app_status` marker does carry the
`refresh_time` — so not every touched row carries the one timestamp. -/
theorem C5_counterexample :
    ¬ (∀ c ∈ (refresh_countries_data emptyStore (.ok (fun _ => none)) (.ok [rawWakanda]) 0
         (fun _ => 1500) (fun _ => 100) false).fst.rows, c.last_refreshed_at = 0) ∧
    (refresh_countries_data emptyStore (.ok (fun _ => none)) (.ok [rawWakanda]) 0
       (fun _ => 1500) (fun _ => 100) false).fst.appStatus = some 0 := by
  constructor
  · decide
  · rfl

/-- C5 amended: `refresh_time` is captured once per cycle; the
`app_status` marker and the reported `refreshedAt` carry it, but each
upserted row's `last_refreshed_at` is stamped by the database clock at
that row's write (`func.now()` column default), not by `refresh_time`:
every row of the final store either predates the cycle or carries some
database-clock value. -/
theorem C5_amended_refresh_timestamps (st : Store) (rates : String → Option ℚ)
    (cs : List RawCountry) (rt : ℕ) (ms nows : ℕ → ℕ) :
    (refresh_countries_data st (.ok rates) (.ok cs) rt ms nows false).fst.appStatus = some rt ∧
    (refresh_countries_data st (.ok rates) (.ok cs) rt ms nows false).snd = ⟨200, .success rt⟩ ∧
    ∀ c ∈ (refresh_countries_data st (.ok rates) (.ok cs) rt ms nows false).fst.rows,
      c ∈ st.rows ∨ ∃ j, c.last_refreshed_at = nows j := by
  refine ⟨rfl, rfl, ?_⟩
  intro c hc
  exact process_list_touched rates ms nows cs st 0 c hc

/-- C6 counterexample: on a concrete refresh where image generation
fails after the commit, the caller receives the 500 internal-error
response, not the success payload the claim promises. -/
theorem C6_counterexample :
    (refresh_countries_data emptyStore (.ok demoRates) (.ok []) 3
       (fun _ => 1500) (fun k => k) true).snd = ⟨500, .internalError⟩ ∧
    (refresh_countries_data emptyStore (.ok demoRates) (.ok []) 3
       (fun _ => 1500) (fun k => k) true).snd ≠ ⟨200, .success 3⟩ :=
  ⟨rfl, by decide⟩

/-- C6 amended: when image generation fails after the commit, the
committed writes are kept — the resulting store is exactly the store of
a fully successful cycle — but the refresh reports a 500 internal error
to the caller instead of the success payload. -/
theorem C6_amended_render_failure (st : Store) (rates : String → Option ℚ)
    (cs : List RawCountry) (rt : ℕ) (ms nows : ℕ → ℕ) :
    (refresh_countries_data st (.ok rates) (.ok cs) rt ms nows true).fst =
      (refresh_countries_data st (.ok rates) (.ok cs) rt ms nows false).fst ∧
    (refresh_countries_data st (.ok rates) (.ok cs) rt ms nows true).snd =
      ⟨500, .internalError⟩ :=
  ⟨rfl, rfl⟩

theorem find?_append_of_none {α : Type} (p : α → Bool) (l1 l2 : List α)
    (h : l1.find? p = none) : (l1 ++ l2).find? p = l2.find? p := by
  induction l1 with
  | nil => rfl
  | cons a l ih =>
    cases hpa : p a
    · rw [List.find?_cons, hpa] at h
      rw [List.cons_append, List.find?_cons, hpa]
      exact ih h
    · rw [List.find?_cons, hpa] at h
      exact absurd h (by simp)

theorem map_id_of_mem_eq {α : Type} (f : α → α) (l : List α) (h : ∀ a ∈ l, f a = a) :
    l.map f = l := by
  induction l with
  | nil => rfl
  | cons a l ih =>
    rw [List.map_cons, h a (by simp), ih (fun b hb => h b (by simp [hb]))]

theorem by_name_none_iff (st : Store) (n : String) :
    get_country_by_name st n = none ↔ ∀ r ∈ st.rows, nameKey r ≠ strLower n := by
  unfold get_country_by_name
  rw [List.find?_eq_none]
  constructor
  · intro h r hr
    have := h r hr
    simpa [nameKey] using this
  · intro h r hr
    simpa [nameKey] using h r hr

theorem by_name_some (st : Store) (n : String) (c : Country)
    (h : get_country_by_name st n = some c) :
    c ∈ st.rows ∧ nameKey c = strLower n := by
  unfold get_country_by_name at h
  refine ⟨List.mem_of_find?_eq_some h, ?_⟩
  have := List.find?_some h
  simpa [nameKey] using this

theorem id_unique_of_wf (st : Store) (hwf : StoreWF st) (r c : Country)
    (hr : r ∈ st.rows) (hc : c ∈ st.rows) (hid : r.id = c.id) : r = c := by
  by_contra hne
  exact List.Pairwise.forall (fun a b h => (h ∘ Eq.symm : ¬b.id = a.id)) hwf.2.1 hr hc hne hid

theorem upsert_wf (st : Store) (d : CountryCreate) (t : ℕ) (hwf : StoreWF st) :
    StoreWF (upsert_country st d t) := by
  obtain ⟨hname, hid, hbound⟩ := hwf
  unfold upsert_country
  cases h : get_country_by_name st d.name with
  | some c0 =>
    obtain ⟨hc0, hkey0⟩ := by_name_some st d.name c0 h
    set f : Country → Country := fun r => if r.id = c0.id then apply_update r d t else r with hf
    have hkeyf : ∀ r ∈ st.rows, nameKey (f r) = nameKey r := by
      intro r hr
      by_cases hrid : r.id = c0.id
      · have : r = c0 := id_unique_of_wf st ⟨hname, hid, hbound⟩ r c0 hr hc0 hrid
        subst this
        simp [hf, hrid, apply_update, nameKey]
        rw [show strLower d.name = nameKey r from hkey0.symm]
        rfl
      · simp [hf, hrid]
    have hidf : ∀ r, (f r).id = r.id := by
      intro r
      by_cases hrid : r.id = c0.id
      · simp [hf, hrid, apply_update]
      · simp [hf, hrid]
    refine ⟨?_, ?_, ?_⟩
    · rw [List.pairwise_map]
      refine hname.imp_of_mem ?_
      intro a b ha hb hab
      rw [hkeyf a ha, hkeyf b hb]
      exact hab
    · rw [List.pairwise_map]
      refine hid.imp_of_mem ?_
      intro a b _ _ hab
      rw [hidf a, hidf b]
      exact hab
    · intro c hc
      obtain ⟨r, hr, hfr⟩ := List.mem_map.mp hc
      rw [← hfr, hidf r]
      exact hbound r hr
  | none =>
    have habs : ∀ r ∈ st.rows, nameKey r ≠ strLower d.name := (by_name_none_iff st d.name).mp h
    refine ⟨?_, ?_, ?_⟩
    · rw [List.pairwise_append]
      refine ⟨hname, by simp, ?_⟩
      intro a ha b hb
      rw [List.mem_singleton] at hb
      subst hb
      simpa [nameKey, mk_row] using habs a ha
    · rw [List.pairwise_append]
      refine ⟨hid, by simp, ?_⟩
      intro a ha b hb
      rw [List.mem_singleton] at hb
      subst hb
      have := hbound a ha
      simp [mk_row]
      omega
    · intro c hc
      rcases List.mem_append.mp hc with hc | hc
      · have := hbound c hc
        simp only []
        omega
      · rw [List.mem_singleton] at hc
        subst hc
        simp [mk_row]

theorem delete_wf (st : Store) (n : String) (hwf : StoreWF st) :
    StoreWF (delete_country_by_name st n).fst := by
  obtain ⟨hname, hid, hbound⟩ := hwf
  unfold delete_country_by_name
  cases h : get_country_by_name st n with
  | some c0 =>
    refine ⟨?_, ?_, ?_⟩
    · exact hname.sublist (List.filter_sublist _)
    · exact hid.sublist (List.filter_sublist _)
    · intro c hc
      exact hbound c (List.mem_of_mem_filter hc)
  | none => exact ⟨hname, hid, hbound⟩

theorem upsert_eq_update (st : Store) (d : CountryCreate) (t : ℕ) (c0 : Country)
    (h : get_country_by_name st d.name = some c0) :
    upsert_country st d t =
      { st with rows := st.rows.map (fun r => if r.id = c0.id then apply_update r d t else r) } := by
  unfold upsert_country
  rw [h]

theorem upsert_eq_insert (st : Store) (d : CountryCreate) (t : ℕ)
    (h : get_country_by_name st d.name = none) :
    upsert_country st d t =
      { st with rows := st.rows ++ [mk_row st.nextId d t], nextId := st.nextId + 1 } := by
  unfold upsert_country
  rw [h]

theorem emptyStore_wf : StoreWF emptyStore := by
  refine ⟨List.Pairwise.nil, List.Pairwise.nil, ?_⟩
  intro c hc
  simp [emptyStore] at hc

/-- C4: on a well-formed store, every write operation preserves the
at-most-one-row-per-case-insensitive-name invariant, and upserting twice
with the same case-insensitive name (absent beforehand) but different
data leaves exactly one row for that name, carrying the second write's
field values and the id the first insert assigned (`st.nextId`). -/
theorem C4_upsert_unique (st : Store) (d1 d2 : CountryCreate) (t1 t2 : ℕ)
    (hwf : StoreWF st) (hk : strLower d1.name = strLower d2.name)
    (habs : get_country_by_name st d1.name = none) :
    (∀ d t, StoreWF (upsert_country st d t)) ∧
    (∀ nm, StoreWF (delete_country_by_name st nm).fst) ∧
    get_country_by_name (upsert_country st d1 t1) d1.name = some (mk_row st.nextId d1 t1) ∧
    StoreWF (upsert_country (upsert_country st d1 t1) d2 t2) ∧
    (upsert_country (upsert_country st d1 t1) d2 t2).rows.filter
      (fun r => strLower r.name == strLower d2.name) = [mk_row st.nextId d2 t2] := by
  have habs' : st.rows.find? (fun c => strLower c.name == strLower d1.name) = none := habs
  have hkeys : ∀ r ∈ st.rows, nameKey r ≠ strLower d1.name := (by_name_none_iff st d1.name).mp habs
  have hfound1 : get_country_by_name (upsert_country st d1 t1) d1.name =
      some (mk_row st.nextId d1 t1) := by
    rw [upsert_eq_insert st d1 t1 habs]
    show (st.rows ++ [mk_row st.nextId d1 t1]).find?
      (fun c => strLower c.name == strLower d1.name) = _
    rw [find?_append_of_none _ _ _ habs']
    simp [List.find?_cons, mk_row]
  have hfound2 : get_country_by_name (upsert_country st d1 t1) d2.name =
      some (mk_row st.nextId d1 t1) := by
    have heq : get_country_by_name (upsert_country st d1 t1) d2.name =
        get_country_by_name (upsert_country st d1 t1) d1.name := by
      unfold get_country_by_name
      rw [hk]
    rw [heq, hfound1]
  have hrows2 : (upsert_country (upsert_country st d1 t1) d2 t2).rows =
      st.rows ++ [mk_row st.nextId d2 t2] := by
    rw [upsert_eq_update _ d2 t2 _ hfound2, upsert_eq_insert st d1 t1 habs]
    show (st.rows ++ [mk_row st.nextId d1 t1]).map _ = _
    rw [List.map_append]
    congr 1
    · apply map_id_of_mem_eq
      intro a ha
      have hb := hwf.2.2 a ha
      have hne : ¬ a.id = (mk_row st.nextId d1 t1).id := by
        show ¬ a.id = st.nextId
        omega
      simp only [hne, if_false]
    · show [if (mk_row st.nextId d1 t1).id = (mk_row st.nextId d1 t1).id
          then apply_update (mk_row st.nextId d1 t1) d2 t2 else mk_row st.nextId d1 t1] = _
      rw [if_pos rfl]
      rfl
  have hfilter : (upsert_country (upsert_country st d1 t1) d2 t2).rows.filter
      (fun r => strLower r.name == strLower d2.name) = [mk_row st.nextId d2 t2] := by
    rw [hrows2, List.filter_append]
    have h1 : st.rows.filter (fun r => strLower r.name == strLower d2.name) = [] := by
      rw [List.filter_eq_nil_iff]
      intro a ha
      have h2 := hkeys a ha
      rw [hk] at h2
      simpa [nameKey] using h2
    rw [h1]
    simp [List.filter_cons, mk_row]
  exact ⟨fun d t => upsert_wf st d t hwf, fun nm => delete_wf st nm hwf, hfound1,
    upsert_wf _ d2 t2 (upsert_wf st d1 t1 hwf), hfilter⟩

theorem C4_witness :
    (StoreWF emptyStore ∧ strLower d1c.name = strLower d2c.name ∧
     get_country_by_name emptyStore d1c.name = none) ∧
    ((∀ d t, StoreWF (upsert_country emptyStore d t)) ∧
     (∀ nm, StoreWF (delete_country_by_name emptyStore nm).fst) ∧
     get_country_by_name (upsert_country emptyStore d1c 1) d1c.name =
       some (mk_row emptyStore.nextId d1c 1) ∧
     StoreWF (upsert_country (upsert_country emptyStore d1c 1) d2c 2) ∧
     (upsert_country (upsert_country emptyStore d1c 1) d2c 2).rows.filter
       (fun r => strLower r.name == strLower d2c.name) = [mk_row emptyStore.nextId d2c 2]) :=
  ⟨⟨emptyStore_wf, by decide, rfl⟩,
   C4_upsert_unique emptyStore d1c d2c 1 2 emptyStore_wf (by decide) rfl⟩
